import Mathlib

/-!
Shallow embedding of the timetable editor's core logic:
`ManualSchedulingGrid.tsx` (visible-day computation, grid initialization,
teacher-conflict checking, cell updates) and `TimetableView.tsx`
(visible-day computation, lab-group lookup, cell rendering).

Days and time slots are modelled as strings, matching the TypeScript string
union types.  Optional record fields become `Option` values; JavaScript
truthiness of an optional boolean is `Option.getD · false`, and truthiness of
an optional string demands a non-empty string.
-/

namespace Timetales

/-- One cell's content: day, time slot, and optional subject/teacher/lab/free
attributes, mirroring the `TimetableEntry` record. -/
structure TimetableEntry where
  day : String
  timeSlot : String
  subjectName : Option String := none
  teacherName : Option String := none
  isLab : Option Bool := none
  batchNumber : Option String := none
  isFree : Option Bool := none
  freeType : Option String := none
  isBreak : Option Bool := none
  isLunch : Option Bool := none
  labGroupId : Option String := none
  isLabGroup : Option Bool := none
  customFreeType : Option String := none
deriving DecidableEq, Repr

/-- A subject/teacher pairing offered in the grid's subject dropdown. -/
structure SubjectTeacherPair where
  id : String
  subjectName : String
  teacherName : String
  isLab : Option Bool := none
  batchNumber : Option String := none
deriving DecidableEq, Repr

/-- 4th-year day configuration from the timetable form. -/
structure DayOptions where
  fourContinuousDays : Bool
  useCustomDays : Bool
  selectedDays : List String
deriving DecidableEq, Repr

/-- The form metadata attached to a stored timetable. -/
structure FormData where
  year : String
  branch : String
  dayOptions : DayOptions
deriving DecidableEq, Repr

/-- A stored timetable: form metadata plus its entry list. -/
structure Timetable where
  formData : FormData
  entries : List TimetableEntry
deriving DecidableEq, Repr

/-- JavaScript truthiness of an optional boolean field. -/
def otrue (o : Option Bool) : Bool := o.getD false

/-- All six week days, `Monday` through `Saturday`. -/
def allDays : List String :=
  ["Monday", "Tuesday", "Wednesday", "Thursday", "Friday", "Saturday"]

/-- The four continuous days used for 4th year when `fourContinuousDays`. -/
def fourDays : List String := ["Monday", "Tuesday", "Wednesday", "Thursday"]

/-- The seven teaching time slots of `ManualSchedulingGrid`. -/
def teachingSlots : List String :=
  ["9:30-10:20", "10:20-11:10", "11:20-12:10", "12:10-1:00",
   "2:00-2:50", "2:50-3:40", "3:40-4:30"]

/-- The break slot. -/
def breakSlot : String := "11:10-11:20"

/-- The lunch slot. -/
def lunchSlot : String := "1:00-2:00"

/-- Teaching slots plus the break and lunch slots: one grid column's rows. -/
def allSlots : List String := teachingSlots ++ [breakSlot, lunchSlot]

/-- `ManualSchedulingGrid`: the `days` computation from `year` and
`dayOptions` (lines 51-63). -/
def msgDays (year : String) (dayOptions : DayOptions) : List String :=
  if year == "4th Year" then
    if dayOptions.useCustomDays then dayOptions.selectedDays
    else if dayOptions.fourContinuousDays then fourDays
    else allDays
  else allDays

/-- `TimetableView`: the `visibleDays` computation from the timetable's
`formData` (lines 49-61). -/
def tvVisibleDays (formData : FormData) : List String :=
  if formData.year == "4th Year" then
    if formData.dayOptions.useCustomDays then formData.dayOptions.selectedDays
    else if formData.dayOptions.fourContinuousDays then fourDays
    else allDays
  else allDays

/-- `ManualSchedulingGrid.checkTeacherConflicts` (lines 173-197): scan all
stored timetables, skipping those with the current year and branch, for an
entry with the given day, time slot and teacher name.  The stored timetables
(`getTimetables()`) are passed explicitly. -/
def checkTeacherConflicts (allTimetables : List Timetable) (year branch : String)
    (day timeSlot teacherName : String) : Bool :=
  allTimetables.any fun timetable =>
    !(timetable.formData.year == year && timetable.formData.branch == branch) &&
      timetable.entries.any fun entry =>
        entry.day == day && entry.timeSlot == timeSlot &&
          entry.teacherName == some teacherName

/-- `TimetableView`: the faculty-filtered entry list (lines 64-66). -/
def entriesFor (timetable : Timetable) (facultyFilter : Option String) :
    List TimetableEntry :=
  match facultyFilter with
  | some f => timetable.entries.filter fun entry => entry.teacherName == some f
  | none => timetable.entries

/-- `TimetableView.getEntry` (lines 74-76). -/
def getEntry (entries : List TimetableEntry) (day timeSlot : String) :
    Option TimetableEntry :=
  entries.find? fun entry => entry.day == day && entry.timeSlot == timeSlot

/-- `TimetableView.getLabEntries` (lines 84-86): all entries with the given
lab group id. -/
def getLabEntries (entries : List TimetableEntry) (labGroupId : String) :
    List TimetableEntry :=
  entries.filter fun entry => entry.labGroupId == some labGroupId

/-- The four morning sub-slots covered by the spanning slot `9:30-1:00`. -/
def morningSubSlots : List String :=
  ["9:30-10:20", "10:20-11:10", "11:20-12:10", "12:10-1:00"]

/-- The three afternoon sub-slots covered by the spanning slot `2:00-4:30`. -/
def afternoonSubSlots : List String := ["2:00-2:50", "2:50-3:40", "3:40-4:30"]

/-- `TimetableView.getLabsForTimeSlot` (lines 95-109): lab entries on the
given day whose spanning time slot covers the queried slot. -/
def getLabsForTimeSlot (entries : List TimetableEntry) (day timeSlot : String) :
    List TimetableEntry :=
  entries.filter fun entry =>
    entry.day == day &&
    (entry.timeSlot == "9:30-1:00" || entry.timeSlot == "2:00-4:30") &&
    (otrue entry.isLab || otrue entry.isLabGroup) &&
    ((entry.timeSlot == "9:30-1:00" && morningSubSlots.contains timeSlot) ||
     (entry.timeSlot == "2:00-4:30" && afternoonSubSlots.contains timeSlot))

/-- Insertion-ordered deduplication, as JavaScript's `[...new Set(l)]`. -/
def jsSetDedup : List String → List String
  | [] => []
  | a :: l => a :: (jsSetDedup l).filter (fun b => b ≠ a)

/-- JavaScript truthiness of an optional string: present and non-empty. -/
def truthyStr (o : Option String) : Bool := o != none && o != some ""

/-- The free-period label computed in `renderCellContent` (lines 184-189):
`customFreeType` replaces a `freeType` of `Others` when present. -/
def jsFreeType (entry : TimetableEntry) : Option String :=
  if entry.freeType == some "Others" && truthyStr entry.customFreeType then
    entry.customFreeType
  else entry.freeType

/-- Abstract result of `TimetableView.renderCellContent`: which branch was
rendered and with what data. -/
inductive CellContent where
  | breakCell
  | lunchCell
  | labGroupCell (groups : List (String × List TimetableEntry))
  | labCell (labs : List TimetableEntry)
  | freeCell (label : Option String)
  | subjectCell (entry : TimetableEntry)
  | emptyCell
deriving DecidableEq, Repr

/-- `TimetableView.renderCellContent` (lines 118-208), as a function from the
(already faculty-filtered) entry list to the rendered branch. -/
def renderCellContent (entries : List TimetableEntry) (day timeSlot : String) :
    CellContent :=
  if timeSlot == "11:10-11:20" then .breakCell
  else if timeSlot == "1:00-2:00" then .lunchCell
  else
    let labEntries := getLabsForTimeSlot entries day timeSlot
    if labEntries.length > 0 then
      let labGroupIds :=
        jsSetDedup ((labEntries.filterMap (fun e => e.labGroupId)).filter
          (fun s => s != ""))
      if labGroupIds.length > 0 then
        .labGroupCell (labGroupIds.map fun gid => (gid, getLabEntries entries gid))
      else .labCell labEntries
    else
      match getEntry entries day timeSlot with
      | none => .emptyCell
      | some entry =>
        if otrue entry.isFree then .freeCell (jsFreeType entry)
        else if truthyStr entry.subjectName then .subjectCell entry
        else .emptyCell

/-- Which dropdown fired `handleCellChange`: the subject select or the
free-hour select. -/
inductive CellType where
  | subject
  | free
deriving DecidableEq, Repr

/-- The first component of JavaScript `value.split("|")`: the prefix of
`value` before the first `|` (the whole string when `|` does not occur). -/
def splitFirst (value : String) : String :=
  ⟨value.data.takeWhile (fun c => c ≠ '|')⟩

/-- `ManualSchedulingGrid.handleCellChange` (lines 199-243), as a function on
the previous entry list.  The stored timetables consulted by the conflict
check, and the component's `year`, `branch` and `subjectTeacherPairs` props,
are passed explicitly. -/
def handleCellChange (allTimetables : List Timetable) (year branch : String)
    (subjectTeacherPairs : List SubjectTeacherPair)
    (day timeSlot value : String) (ty : CellType)
    (prevEntries : List TimetableEntry) : List TimetableEntry :=
  prevEntries.map fun entry =>
    if entry.day == day && entry.timeSlot == timeSlot then
      match ty with
      | .subject =>
        match subjectTeacherPairs.find? (fun s => s.id == splitFirst value) with
        | some subject =>
          if checkTeacherConflicts allTimetables year branch day timeSlot
              subject.teacherName then
            entry
          else
            { entry with
              subjectName := some subject.subjectName
              teacherName := some subject.teacherName
              isLab := subject.isLab
              batchNumber := subject.batchNumber
              isFree := some false
              freeType := none }
        | none => entry
      | .free =>
        { entry with
          subjectName := none
          teacherName := none
          isLab := some false
          batchNumber := none
          isFree := some true
          freeType := some value }
    else entry

/-- The reset record built by `clearCell` (lines 249-259): only `day` and
`timeSlot` set, `isLab` and `isFree` explicitly false, all else undefined. -/
def clearedEntry (day timeSlot : String) : TimetableEntry :=
  { day := day
    timeSlot := timeSlot
    subjectName := none
    teacherName := none
    isLab := some false
    batchNumber := none
    isFree := some false
    freeType := none }

/-- `ManualSchedulingGrid.clearCell` (lines 245-264): replace the targeted
cell's entry by a fresh record with every optional field reset. -/
def clearCell (day timeSlot : String) (prevEntries : List TimetableEntry) :
    List TimetableEntry :=
  prevEntries.map fun entry =>
    if entry.day == day && entry.timeSlot == timeSlot then
      clearedEntry day timeSlot
    else entry

/-- One day's block of the initialization `useEffect` (lines 85-133): for
each teaching slot the first filtered entry at that day and slot, else a
fresh empty entry; then the first filtered break entry at `11:10-11:20`,
else a fresh break; then the first filtered lunch entry at `1:00-2:00`, else
a fresh lunch. -/
def dayBlock (filteredEntries : List TimetableEntry) (day : String) :
    List TimetableEntry :=
  (teachingSlots.map fun timeSlot =>
    (filteredEntries.find? (fun entry =>
      entry.day == day && entry.timeSlot == timeSlot)).getD
      { day := day, timeSlot := timeSlot }) ++
  [(filteredEntries.find? (fun entry =>
      entry.day == day && entry.timeSlot == "11:10-11:20" &&
        otrue entry.isBreak)).getD
      { day := day, timeSlot := "11:10-11:20", isBreak := some true },
   (filteredEntries.find? (fun entry =>
      entry.day == day && entry.timeSlot == "1:00-2:00" &&
        otrue entry.isLunch)).getD
      { day := day, timeSlot := "1:00-2:00", isLunch := some true }]

/-- The initialization path taken when `existingEntries` is non-empty
(lines 76-137): filter the existing entries to the visible days, then build
each day's block against the filtered list. -/
def initEntriesExisting (days : List String)
    (existingEntries : List TimetableEntry) : List TimetableEntry :=
  let filteredEntries := existingEntries.filter fun entry =>
    days.contains entry.day
  days.flatMap (dayBlock filteredEntries)

/-- One day's block of the initialization path without existing entries
(lines 141-161): fresh empty entries for the teaching slots plus a fresh
break and lunch. -/
def dayBlockEmpty (day : String) : List TimetableEntry :=
  (teachingSlots.map fun timeSlot => { day := day, timeSlot := timeSlot }) ++
  [{ day := day, timeSlot := "11:10-11:20", isBreak := some true },
   { day := day, timeSlot := "1:00-2:00", isLunch := some true }]

/-- The initialization path taken when `existingEntries` is empty
(lines 139-163). -/
def initEntriesEmpty (days : List String) : List TimetableEntry :=
  days.flatMap dayBlockEmpty

/-- The initialization `useEffect` (lines 75-164): the non-empty path when
`existingEntries.length > 0`, else the fresh path. -/
def initEntries (days : List String) (existingEntries : List TimetableEntry) :
    List TimetableEntry :=
  if 0 < existingEntries.length then initEntriesExisting days existingEntries
  else initEntriesEmpty days

/-- The number of entries of `l` at day `d` and time slot `t`; the grid
invariant says this is 1 for every visible cell. -/
def countPair (l : List TimetableEntry) (d t : String) : Nat :=
  (l.filter fun entry => entry.day == d && entry.timeSlot == t).length

/-- A concrete batch-1 lab entry spanning `9:30-1:00` in group `G`. -/
def labE1 : TimetableEntry :=
  { day := "Monday", timeSlot := "9:30-1:00", subjectName := some "Physics Lab",
    teacherName := some "T1", isLab := some true, batchNumber := some "B1",
    labGroupId := some "G" }

/-- A concrete batch-2 lab entry spanning `9:30-1:00` in group `G`. -/
def labE2 : TimetableEntry :=
  { day := "Monday", timeSlot := "9:30-1:00", subjectName := some "Chemistry Lab",
    teacherName := some "T2", isLab := some true, batchNumber := some "B2",
    labGroupId := some "G" }

end Timetales

namespace Timetales

/-- An optional boolean field is truthy exactly when it is `some true`. -/
theorem otrue_eq_true (o : Option Bool) : otrue o = true ↔ o = some true := by
  cases o with
  | none => simp [otrue]
  | some b => cases b <;> simp [otrue]

/-- With a lawful `BEq`, `List.contains` is membership. -/
theorem contains_iff_mem {α : Type _} [BEq α] [LawfulBEq α] (l : List α)
    (a : α) : l.contains a = true ↔ a ∈ l := by
  simp [List.contains_iff_exists_mem_beq]

/-- C1 -- `checkTeacherConflicts(day, timeSlot, teacherName)` returns true
iff some stored timetable whose formData year and branch are not both equal
to the current component's year and branch contains an entry with that exact
day, time slot, and teacher name. -/
theorem checkTeacherConflicts_iff (allTimetables : List Timetable)
    (year branch day timeSlot teacherName : String) :
    checkTeacherConflicts allTimetables year branch day timeSlot teacherName = true ↔
      ∃ t ∈ allTimetables,
        ¬(t.formData.year = year ∧ t.formData.branch = branch) ∧
        ∃ e ∈ t.entries,
          e.day = day ∧ e.timeSlot = timeSlot ∧ e.teacherName = some teacherName := by
  simp only [checkTeacherConflicts, List.any_eq_true, Bool.and_eq_true,
    Bool.not_eq_true', Bool.and_eq_false_iff, beq_eq_false_iff_ne, beq_iff_eq,
    ne_eq]
  refine exists_congr fun t => and_congr_right fun _ => and_congr ?_ ?_
  · tauto
  · exact exists_congr fun e => and_congr_right fun _ => by tauto

/-- C2 -- for every year other than `4th Year` the visible days are Monday
through Saturday; for `4th Year` they follow the day options; and
`ManualSchedulingGrid` and `TimetableView` compute the same visible-day list
from the same configuration. -/
theorem visibleDays_spec (f : FormData) :
    msgDays f.year f.dayOptions = tvVisibleDays f
    ∧ (f.year ≠ "4th Year" → tvVisibleDays f = allDays)
    ∧ (f.year = "4th Year" → f.dayOptions.useCustomDays = true →
        tvVisibleDays f = f.dayOptions.selectedDays)
    ∧ (f.year = "4th Year" → f.dayOptions.useCustomDays = false →
        f.dayOptions.fourContinuousDays = true → tvVisibleDays f = fourDays)
    ∧ (f.year = "4th Year" → f.dayOptions.useCustomDays = false →
        f.dayOptions.fourContinuousDays = false → tvVisibleDays f = allDays) := by
  refine ⟨rfl, ?_, ?_, ?_, ?_⟩ <;>
    intros <;> simp_all [tvVisibleDays]

/-- Witness for C2: a concrete 4th-year configuration with
`fourContinuousDays` set shows Monday through Thursday. -/
theorem visibleDays_spec_witness :
    tvVisibleDays ⟨"4th Year", "CSE", ⟨true, false, []⟩⟩ = fourDays :=
  (visibleDays_spec ⟨"4th Year", "CSE", ⟨true, false, []⟩⟩).2.2.2.1 rfl rfl rfl

/-- C10 -- in `TimetableView`, the cell content for the `11:10-11:20` row is
always `Break` and for the `1:00-2:00` row always `Lunch`, for every day,
timetable and faculty filter. -/
theorem breakLunch_fixed (timetable : Timetable) (facultyFilter : Option String)
    (day : String) :
    renderCellContent (entriesFor timetable facultyFilter) day "11:10-11:20" =
      CellContent.breakCell
    ∧ renderCellContent (entriesFor timetable facultyFilter) day "1:00-2:00" =
      CellContent.lunchCell :=
  ⟨rfl, rfl⟩

/-- C6 -- `getLabsForTimeSlot(day, timeSlot)` returns an entry exactly when
it is on that day, is marked `isLab` or `isLabGroup`, and its time slot is
`9:30-1:00` while the queried slot is one of the four morning sub-slots, or
`2:00-4:30` while the queried slot is one of the three afternoon
sub-slots. -/
theorem getLabsForTimeSlot_iff (entries : List TimetableEntry)
    (day timeSlot : String) (e : TimetableEntry) :
    e ∈ getLabsForTimeSlot entries day timeSlot ↔
      e ∈ entries ∧ e.day = day ∧
        (e.isLab = some true ∨ e.isLabGroup = some true) ∧
        ((e.timeSlot = "9:30-1:00" ∧
            (timeSlot = "9:30-10:20" ∨ timeSlot = "10:20-11:10" ∨
             timeSlot = "11:20-12:10" ∨ timeSlot = "12:10-1:00")) ∨
         (e.timeSlot = "2:00-4:30" ∧
            (timeSlot = "2:00-2:50" ∨ timeSlot = "2:50-3:40" ∨
             timeSlot = "3:40-4:30"))) := by
  simp only [getLabsForTimeSlot, List.mem_filter, Bool.and_eq_true,
    Bool.or_eq_true, beq_iff_eq, otrue_eq_true, contains_iff_mem,
    morningSubSlots, afternoonSubSlots, List.mem_cons, List.not_mem_nil,
    or_false]
  tauto

/-- Membership is invariant under insertion-ordered deduplication. -/
theorem mem_jsSetDedup (s : String) (l : List String) :
    s ∈ jsSetDedup l ↔ s ∈ l := by
  induction l with
  | nil => simp [jsSetDedup]
  | cons a t ih =>
    simp only [jsSetDedup, List.mem_cons, List.mem_filter,
      decide_eq_true_eq, ih]
    by_cases h : s = a
    · simp [h]
    · simp [h]

/-- C5 -- `getLabEntries(labGroupId)` returns exactly the entries whose
`labGroupId` equals the given identifier, and when the lab-group branch of a
spanning slot is rendered, every member of each lab group present in that
slot appears in the rendered cell. -/
theorem labGroup_rendering (entries : List TimetableEntry)
    (day timeSlot gid : String) :
    (∀ e, e ∈ getLabEntries entries gid ↔
        e ∈ entries ∧ e.labGroupId = some gid)
    ∧ (∀ groups,
        renderCellContent entries day timeSlot = CellContent.labGroupCell groups →
        ∀ lab ∈ getLabsForTimeSlot entries day timeSlot,
          lab.labGroupId = some gid → gid ≠ "" →
          ∃ p ∈ groups, p.1 = gid ∧
            ∀ g ∈ entries, g.labGroupId = some gid → g ∈ p.2) := by
  have hmem : ∀ e, e ∈ getLabEntries entries gid ↔
      e ∈ entries ∧ e.labGroupId = some gid := by
    intro e
    simp [getLabEntries, List.mem_filter]
  refine ⟨hmem, ?_⟩
  intro groups hrender lab hlab hgid hne
  by_cases h1 : (timeSlot == "11:10-11:20") = true
  · rw [renderCellContent, if_pos h1] at hrender
    exact absurd hrender (by simp)
  by_cases h2 : (timeSlot == "1:00-2:00") = true
  · rw [renderCellContent, if_neg h1, if_pos h2] at hrender
    exact absurd hrender (by simp)
  rw [renderCellContent, if_neg h1, if_neg h2] at hrender
  dsimp only at hrender
  have hlen : 0 < (getLabsForTimeSlot entries day timeSlot).length :=
    List.length_pos_of_mem hlab
  rw [if_pos hlen] at hrender
  have hid : gid ∈ jsSetDedup
      (((getLabsForTimeSlot entries day timeSlot).filterMap
        (fun e => e.labGroupId)).filter (fun s => s != "")) := by
    rw [mem_jsSetDedup]
    refine List.mem_filter.2 ⟨List.mem_filterMap.2 ⟨lab, hlab, hgid⟩, ?_⟩
    simp [hne]
  have hids : 0 < (jsSetDedup
      (((getLabsForTimeSlot entries day timeSlot).filterMap
        (fun e => e.labGroupId)).filter (fun s => s != ""))).length :=
    List.length_pos_of_mem hid
  rw [if_pos hids] at hrender
  injection hrender with hg
  subst hg
  refine ⟨(gid, getLabEntries entries gid), List.mem_map_of_mem _ hid, rfl, ?_⟩
  intro g hgmem hgid2
  exact (hmem g).2 ⟨hgmem, hgid2⟩

/-- Witness for C5: two batches sharing lab group `G` on Monday's spanning
morning slot are both included in the rendered cell. -/
theorem labGroup_rendering_witness :
    ∃ p ∈ [("G", [labE1, labE2])], p.1 = "G" ∧
      ∀ g ∈ [labE1, labE2], g.labGroupId = some "G" → g ∈ p.2 :=
  (labGroup_rendering [labE1, labE2] "Monday" "9:30-10:20" "G").2
    [("G", [labE1, labE2])] (by decide) labE1 (by decide) (by decide)
    (by decide)

/-- C9 -- `clearCell` is idempotent, and after one application every entry at
the targeted day and time slot has `subjectName`, `teacherName`,
`batchNumber` and `freeType` undefined and `isLab` and `isFree` false. -/
theorem clearCell_idem (day timeSlot : String) (l : List TimetableEntry) :
    clearCell day timeSlot (clearCell day timeSlot l) = clearCell day timeSlot l
    ∧ ∀ e ∈ clearCell day timeSlot l, e.day = day → e.timeSlot = timeSlot →
        e.subjectName = none ∧ e.teacherName = none ∧ e.batchNumber = none ∧
        e.freeType = none ∧ e.isLab = some false ∧ e.isFree = some false := by
  constructor
  · simp only [clearCell, List.map_map]
    apply List.map_congr_left
    intro a _
    simp only [Function.comp_apply]
    by_cases h : (a.day == day && a.timeSlot == timeSlot) = true
    · rw [if_pos h, if_pos (by simp [clearedEntry])]
    · rw [if_neg h, if_neg h]
  · intro e he hd ht
    simp only [clearCell, List.mem_map] at he
    obtain ⟨a, -, ha⟩ := he
    by_cases h : (a.day == day && a.timeSlot == timeSlot) = true
    · rw [if_pos h] at ha
      subst ha
      exact ⟨rfl, rfl, rfl, rfl, rfl, rfl⟩
    · rw [if_neg h] at ha
      subst ha
      exact absurd (by simp [hd, ht]) h

/-- Witness for C9: clearing a concrete one-entry grid, the cleared entry's
fields are reset. -/
theorem clearCell_idem_witness :
    ∀ e ∈ clearCell "Monday" "9:30-10:20"
        [{ day := "Monday", timeSlot := "9:30-10:20",
           subjectName := some "Math", teacherName := some "T" }],
      e.day = "Monday" → e.timeSlot = "9:30-10:20" →
        e.subjectName = none ∧ e.teacherName = none ∧ e.batchNumber = none ∧
        e.freeType = none ∧ e.isLab = some false ∧ e.isFree = some false :=
  (clearCell_idem "Monday" "9:30-10:20"
    [{ day := "Monday", timeSlot := "9:30-10:20",
       subjectName := some "Math", teacherName := some "T" }]).2

/-- C8 -- `handleCellChange` and `clearCell` preserve the length of the entry
list and leave every entry whose day or time slot differs from the target
unchanged, position by position. -/
theorem cellOps_frame (allTimetables : List Timetable) (year branch : String)
    (pairs : List SubjectTeacherPair) (day timeSlot value : String)
    (ty : CellType) (prev : List TimetableEntry) :
    (handleCellChange allTimetables year branch pairs day timeSlot value ty
        prev).length = prev.length
    ∧ (clearCell day timeSlot prev).length = prev.length
    ∧ ∀ (i : Nat) (e : TimetableEntry), prev[i]? = some e →
        (e.day ≠ day ∨ e.timeSlot ≠ timeSlot) →
        (handleCellChange allTimetables year branch pairs day timeSlot value ty
            prev)[i]? = some e
        ∧ (clearCell day timeSlot prev)[i]? = some e := by
  refine ⟨by simp [handleCellChange], by simp [clearCell], ?_⟩
  intro i e hi hne
  have hcond : ¬((e.day == day && e.timeSlot == timeSlot) = true) := by
    rcases hne with h | h <;> simp [h]
  constructor
  · rw [handleCellChange, List.getElem?_map, hi, Option.map_some']
    exact congrArg some (if_neg hcond)
  · rw [clearCell, List.getElem?_map, hi, Option.map_some']
    exact congrArg some (if_neg hcond)

/-- Witness for C8: an entry on a different day survives both operations at
position 0. -/
theorem cellOps_frame_witness :
    (handleCellChange [] "1st Year" "CSE" [] "Tuesday" "9:30-10:20" "v"
        CellType.free [{ day := "Monday", timeSlot := "9:30-10:20" }])[0]? =
      some { day := "Monday", timeSlot := "9:30-10:20" }
    ∧ (clearCell "Tuesday" "9:30-10:20"
        [{ day := "Monday", timeSlot := "9:30-10:20" }])[0]? =
      some { day := "Monday", timeSlot := "9:30-10:20" } :=
  (cellOps_frame [] "1st Year" "CSE" [] "Tuesday" "9:30-10:20" "v"
    CellType.free [{ day := "Monday", timeSlot := "9:30-10:20" }]).2.2 0
    { day := "Monday", timeSlot := "9:30-10:20" } rfl (Or.inl (by decide))

/-- C7 -- when `handleCellChange` assigns a subject whose teacher has a
conflict in another stored timetable, the entry list is returned unchanged:
no field of any entry is modified. -/
theorem conflict_rejects (allTimetables : List Timetable) (year branch : String)
    (pairs : List SubjectTeacherPair) (day timeSlot value : String)
    (prev : List TimetableEntry) (subject : SubjectTeacherPair)
    (hfind : pairs.find? (fun s => s.id == splitFirst value) = some subject)
    (hconf : checkTeacherConflicts allTimetables year branch day timeSlot
        subject.teacherName = true) :
    handleCellChange allTimetables year branch pairs day timeSlot value
      CellType.subject prev = prev := by
  unfold handleCellChange
  induction prev with
  | nil => rfl
  | cons a l ih =>
    rw [List.map_cons, ih]
    congr 1
    by_cases h : (a.day == day && a.timeSlot == timeSlot) = true
    · rw [if_pos h]
      dsimp only
      rw [hfind]
      dsimp only
      rw [if_pos hconf]
    · rw [if_neg h]

/-- Filtering by a weaker predicate does not change the first match of a
stronger one. -/
theorem find?_filter_eq {α : Type _} (l : List α) (p q : α → Bool)
    (himp : ∀ a, q a = true → p a = true) :
    (l.filter p).find? q = l.find? q := by
  induction l with
  | nil => rfl
  | cons a t ih =>
    rw [List.filter_cons]
    by_cases hq : q a = true
    · rw [if_pos (himp a hq), List.find?_cons, List.find?_cons, hq]
    · rw [Bool.not_eq_true] at hq
      by_cases hp : p a = true
      · rw [if_pos hp, List.find?_cons, List.find?_cons, hq, ih]
      · rw [if_neg hp, ih, List.find?_cons, hq]

/-- Pointwise equal functions give equal flat maps. -/
theorem flatMap_congr {α β : Type _} {l : List α} {f g : α → List β}
    (h : ∀ a ∈ l, f a = g a) : l.flatMap f = l.flatMap g := by
  induction l with
  | nil => rfl
  | cons a t ih =>
    rw [List.flatMap_cons, List.flatMap_cons, h a (List.mem_cons_self a t),
      ih fun x hx => h x (List.mem_cons_of_mem a hx)]

/-- Every entry of a day's block carries that day. -/
theorem mem_dayBlock_day (filteredEntries : List TimetableEntry)
    (day : String) (e : TimetableEntry) (he : e ∈ dayBlock filteredEntries day) :
    e.day = day := by
  simp only [dayBlock, List.mem_append, List.mem_map, List.mem_cons,
    List.not_mem_nil, or_false] at he
  rcases he with ⟨ts, -, rfl⟩ | rfl | rfl
  · cases hf : filteredEntries.find? (fun entry =>
        entry.day == day && entry.timeSlot == ts) with
    | none => rfl
    | some x =>
      have := List.find?_some hf
      simp only [Bool.and_eq_true, beq_iff_eq] at this
      simp only [Option.getD_some]
      exact this.1
  · cases hf : filteredEntries.find? (fun entry =>
        entry.day == day && entry.timeSlot == "11:10-11:20" &&
          otrue entry.isBreak) with
    | none => rfl
    | some x =>
      have := List.find?_some hf
      simp only [Bool.and_eq_true, beq_iff_eq] at this
      simp only [Option.getD_some]
      exact this.1.1
  · cases hf : filteredEntries.find? (fun entry =>
        entry.day == day && entry.timeSlot == "1:00-2:00" &&
          otrue entry.isLunch) with
    | none => rfl
    | some x =>
      have := List.find?_some hf
      simp only [Bool.and_eq_true, beq_iff_eq] at this
      simp only [Option.getD_some]
      exact this.1.1

/-- C3 -- with a non-empty `existingEntries` list, the grid is, day by day,
the first existing entry at each (day, teaching slot) if any (else a fresh
empty entry), then a break entry and a lunch entry for the day; every
existing entry on a non-visible day is discarded, so every resulting entry
is on a visible day. -/
theorem initEntries_existing_spec (days : List String)
    (existing : List TimetableEntry) (hne : existing ≠ []) :
    initEntries days existing =
      days.flatMap (fun day =>
        (teachingSlots.map fun timeSlot =>
          (existing.find? (fun entry =>
            entry.day == day && entry.timeSlot == timeSlot)).getD
            { day := day, timeSlot := timeSlot }) ++
        [(existing.find? (fun entry =>
            entry.day == day && entry.timeSlot == "11:10-11:20" &&
              otrue entry.isBreak)).getD
            { day := day, timeSlot := "11:10-11:20", isBreak := some true },
         (existing.find? (fun entry =>
            entry.day == day && entry.timeSlot == "1:00-2:00" &&
              otrue entry.isLunch)).getD
            { day := day, timeSlot := "1:00-2:00", isLunch := some true }])
    ∧ ∀ e ∈ initEntries days existing, e.day ∈ days := by
  have hinit : initEntries days existing = initEntriesExisting days existing := by
    rw [initEntries, if_pos (List.length_pos.2 hne)]
  have hdrop : ∀ day ∈ days, ∀ q : TimetableEntry → Bool,
      (∀ e, q e = true → e.day = day) →
      (existing.filter fun entry => days.contains entry.day).find? q =
        existing.find? q := by
    intro day hday q hq
    refine find?_filter_eq existing _ q fun e he => ?_
    rw [hq e he]
    exact (contains_iff_mem days day).2 hday
  constructor
  · rw [hinit, initEntriesExisting]
    refine flatMap_congr fun day hday => ?_
    rw [dayBlock,
      hdrop day hday _ (fun e he => by
        simp only [Bool.and_eq_true, beq_iff_eq] at he; exact he.1.1),
      hdrop day hday _ (fun e he => by
        simp only [Bool.and_eq_true, beq_iff_eq] at he; exact he.1.1)]
    congr 1
    refine List.map_congr_left fun ts _ => ?_
    rw [hdrop day hday _ (fun e he => by
      simp only [Bool.and_eq_true, beq_iff_eq] at he; exact he.1)]
  · intro e he
    rw [hinit, initEntriesExisting] at he
    simp only [List.mem_flatMap] at he
    obtain ⟨day, hday, hblock⟩ := he
    rw [mem_dayBlock_day _ day e hblock]
    exact hday

/-- Witness for C3: initializing Monday-only against one saved Monday entry
keeps that entry first and pads the rest. -/
theorem initEntries_existing_spec_witness :
    initEntries ["Monday"]
        [{ day := "Monday", timeSlot := "9:30-10:20",
           subjectName := some "Math", teacherName := some "T" }] =
      ["Monday"].flatMap (fun day =>
        (teachingSlots.map fun timeSlot =>
          (([{ day := "Monday", timeSlot := "9:30-10:20",
               subjectName := some "Math", teacherName := some "T" }] :
              List TimetableEntry).find? (fun entry =>
            entry.day == day && entry.timeSlot == timeSlot)).getD
            { day := day, timeSlot := timeSlot }) ++
        [(([{ day := "Monday", timeSlot := "9:30-10:20",
              subjectName := some "Math", teacherName := some "T" }] :
              List TimetableEntry).find? (fun entry =>
            entry.day == day && entry.timeSlot == "11:10-11:20" &&
              otrue entry.isBreak)).getD
            { day := day, timeSlot := "11:10-11:20", isBreak := some true },
         (([{ day := "Monday", timeSlot := "9:30-10:20",
              subjectName := some "Math", teacherName := some "T" }] :
              List TimetableEntry).find? (fun entry =>
            entry.day == day && entry.timeSlot == "1:00-2:00" &&
              otrue entry.isLunch)).getD
            { day := day, timeSlot := "1:00-2:00", isLunch := some true }]) :=
  (initEntries_existing_spec ["Monday"]
    [{ day := "Monday", timeSlot := "9:30-10:20",
       subjectName := some "Math", teacherName := some "T" }]
    (by decide)).1

/-- The entry a block stores for a slot carries the block's day and that
slot, whether found or fresh. -/
theorem getD_key (filteredEntries : List TimetableEntry) (day ts : String)
    (q : TimetableEntry → Bool) (dflt : TimetableEntry)
    (hq : ∀ e, q e = true → e.day = day ∧ e.timeSlot = ts)
    (hdflt : dflt.day = day ∧ dflt.timeSlot = ts) :
    ((filteredEntries.find? q).getD dflt).day = day ∧
    ((filteredEntries.find? q).getD dflt).timeSlot = ts := by
  cases hf : filteredEntries.find? q with
  | none => exact hdflt
  | some x => simpa using hq x (List.find?_some hf)

/-- `countPair` distributes over append. -/
theorem countPair_append (l₁ l₂ : List TimetableEntry) (d t : String) :
    countPair (l₁ ++ l₂) d t = countPair l₁ d t + countPair l₂ d t := by
  simp [countPair, List.filter_append]

/-- A map that preserves day and time slot preserves every cell count. -/
theorem countPair_map (f : TimetableEntry → TimetableEntry)
    (l : List TimetableEntry) (d t : String)
    (hf : ∀ e ∈ l, (f e).day = e.day ∧ (f e).timeSlot = e.timeSlot) :
    countPair (l.map f) d t = countPair l d t := by
  rw [countPair, countPair, ← List.countP_eq_length_filter,
    ← List.countP_eq_length_filter, List.countP_map]
  exact List.countP_congr fun e he => by
    simp only [Function.comp_apply]
    rw [(hf e he).1, (hf e he).2]

/-- Exactly one slot of `allSlots` matches a member of `allSlots`. -/
theorem countP_beq_allSlots (t : String) (ht : t ∈ allSlots) :
    List.countP (fun s => s == t) allSlots = 1 := by
  simp only [allSlots, teachingSlots, breakSlot, lunchSlot, List.mem_append,
    List.mem_cons, List.not_mem_nil, or_false] at ht
  rcases ht with ⟨rfl | rfl | rfl | rfl | rfl | rfl | rfl⟩ | rfl | rfl <;> decide

/-- A day's block has exactly one entry per slot of `allSlots`: its count at
its own day and any slot is the slot's multiplicity in `allSlots`. -/
theorem countPair_dayBlock_eq_one (filteredEntries : List TimetableEntry)
    (day t : String) (ht : t ∈ allSlots) :
    countPair (dayBlock filteredEntries day) day t = 1 := by
  have hkeyT : ∀ ts : String,
      (((filteredEntries.find? (fun entry =>
          entry.day == day && entry.timeSlot == ts)).getD
          { day := day, timeSlot := ts }) : TimetableEntry).day = day ∧
      (((filteredEntries.find? (fun entry =>
          entry.day == day && entry.timeSlot == ts)).getD
          { day := day, timeSlot := ts }) : TimetableEntry).timeSlot = ts :=
    fun ts => getD_key _ day ts _ _
      (fun e he => by simpa using he) ⟨rfl, rfl⟩
  have hkeyB := getD_key filteredEntries day "11:10-11:20"
    (fun entry => entry.day == day && entry.timeSlot == "11:10-11:20" &&
      otrue entry.isBreak)
    { day := day, timeSlot := "11:10-11:20", isBreak := some true }
    (fun e he => by
      simp only [Bool.and_eq_true, beq_iff_eq] at he
      exact ⟨he.1.1, he.1.2⟩) ⟨rfl, rfl⟩
  have hkeyL := getD_key filteredEntries day "1:00-2:00"
    (fun entry => entry.day == day && entry.timeSlot == "1:00-2:00" &&
      otrue entry.isLunch)
    { day := day, timeSlot := "1:00-2:00", isLunch := some true }
    (fun e he => by
      simp only [Bool.and_eq_true, beq_iff_eq] at he
      exact ⟨he.1.1, he.1.2⟩) ⟨rfl, rfl⟩
  rw [countPair, ← List.countP_eq_length_filter, dayBlock, List.countP_append,
    List.countP_map]
  have hteach : List.countP ((fun entry =>
      entry.day == day && entry.timeSlot == t) ∘ fun timeSlot =>
        (filteredEntries.find? (fun entry =>
          entry.day == day && entry.timeSlot == timeSlot)).getD
          { day := day, timeSlot := timeSlot }) teachingSlots =
      List.countP (fun s => s == t) teachingSlots :=
    List.countP_congr fun ts _ => by
      simp only [Function.comp_apply]
      rw [(hkeyT ts).1, (hkeyT ts).2]
      simp
  have hbl : List.countP (fun entry =>
      entry.day == day && entry.timeSlot == t)
        [(filteredEntries.find? (fun entry =>
            entry.day == day && entry.timeSlot == "11:10-11:20" &&
              otrue entry.isBreak)).getD
            { day := day, timeSlot := "11:10-11:20", isBreak := some true },
         (filteredEntries.find? (fun entry =>
            entry.day == day && entry.timeSlot == "1:00-2:00" &&
              otrue entry.isLunch)).getD
            { day := day, timeSlot := "1:00-2:00", isLunch := some true }] =
      List.countP (fun s => s == t) [breakSlot, lunchSlot] := by
    simp only [List.countP_cons, List.countP_nil]
    rw [hkeyB.1, hkeyB.2, hkeyL.1, hkeyL.2]
    simp [breakSlot, lunchSlot]
  rw [hteach, hbl, ← List.countP_append]
  exact countP_beq_allSlots t ht

/-- A day's block contributes nothing to another day's cell counts. -/
theorem countPair_dayBlock_eq_zero (filteredEntries : List TimetableEntry)
    (day d t : String) (hdd : day ≠ d) :
    countPair (dayBlock filteredEntries day) d t = 0 := by
  rw [countPair, ← List.countP_eq_length_filter]
  rw [List.countP_eq_zero]
  intro e he
  have := mem_dayBlock_day filteredEntries day e he
  simp [this, hdd]

/-- Blocks over days a cell's day is not among contribute nothing. -/
theorem countPair_flatMap_zero (filteredEntries : List TimetableEntry)
    (days : List String) (d t : String) (hd : d ∉ days) :
    countPair (days.flatMap (dayBlock filteredEntries)) d t = 0 := by
  induction days with
  | nil => rfl
  | cons day rest ih =>
    rw [List.flatMap_cons, countPair_append,
      countPair_dayBlock_eq_zero _ day d t (fun h => hd (h ▸ List.mem_cons_self day rest)),
      ih fun h => hd (List.mem_cons_of_mem day h)]

/-- Over distinct days, the initialization blocks put exactly one entry in
every visible cell. -/
theorem countPair_flatMap_one (filteredEntries : List TimetableEntry)
    (days : List String) (d t : String) (hnd : days.Nodup) (hd : d ∈ days)
    (ht : t ∈ allSlots) :
    countPair (days.flatMap (dayBlock filteredEntries)) d t = 1 := by
  induction days with
  | nil => cases hd
  | cons day rest ih =>
    have hnotin : day ∉ rest := (List.nodup_cons.1 hnd).1
    rw [List.flatMap_cons, countPair_append]
    rcases List.mem_cons.1 hd with rfl | hdrest
    · rw [countPair_dayBlock_eq_one filteredEntries d t ht,
        countPair_flatMap_zero filteredEntries rest d t hnotin]
    · rw [countPair_dayBlock_eq_zero filteredEntries day d t
        (fun h => hnotin (h ▸ hdrest)),
        ih (List.nodup_cons.1 hnd).2 hdrest]

/-- C4 -- the grid keeps exactly one entry per visible (day, time slot)
cell: both initialization paths establish the invariant for every visible
day and every slot among the seven teaching slots, break and lunch, and
`handleCellChange` and `clearCell` preserve every cell count. -/
theorem one_entry_per_cell (days : List String)
    (existing prev : List TimetableEntry) (allTimetables : List Timetable)
    (year branch : String) (pairs : List SubjectTeacherPair)
    (day timeSlot value : String) (ty : CellType) (d t : String)
    (hnd : days.Nodup) (hd : d ∈ days) (ht : t ∈ allSlots) :
    countPair (initEntriesEmpty days) d t = 1
    ∧ countPair (initEntriesExisting days existing) d t = 1
    ∧ countPair (handleCellChange allTimetables year branch pairs day timeSlot
        value ty prev) d t = countPair prev d t
    ∧ countPair (clearCell day timeSlot prev) d t = countPair prev d t := by
  refine ⟨?_, ?_, ?_, ?_⟩
  · have hde : dayBlockEmpty = dayBlock [] := funext fun day => rfl
    rw [initEntriesEmpty, hde]
    exact countPair_flatMap_one [] days d t hnd hd ht
  · rw [initEntriesExisting]
    exact countPair_flatMap_one _ days d t hnd hd ht
  · rw [handleCellChange]
    apply countPair_map
    intro e _
    by_cases h : (e.day == day && e.timeSlot == timeSlot) = true
    · rw [if_pos h]
      cases ty with
      | subject =>
        dsimp only
        cases hfq : pairs.find? (fun s => s.id == splitFirst value) with
        | none => exact ⟨rfl, rfl⟩
        | some s =>
          dsimp only
          by_cases hc : checkTeacherConflicts allTimetables year branch day
              timeSlot s.teacherName = true
          · rw [if_pos hc]
            exact ⟨rfl, rfl⟩
          · rw [if_neg hc]
            exact ⟨rfl, rfl⟩
      | free => exact ⟨rfl, rfl⟩
    · rw [if_neg h]
      exact ⟨rfl, rfl⟩
  · rw [clearCell]
    apply countPair_map
    intro e _
    by_cases h : (e.day == day && e.timeSlot == timeSlot) = true
    · rw [if_pos h]
      have hkey := h
      simp only [Bool.and_eq_true, beq_iff_eq] at hkey
      exact ⟨hkey.1.symm, hkey.2.symm⟩
    · rw [if_neg h]
      exact ⟨rfl, rfl⟩

/-- Witness for C4: the invariant holds at Monday's first slot of a fresh
six-day grid, and both operations preserve the count on an empty list. -/
theorem one_entry_per_cell_witness :
    countPair (initEntriesEmpty allDays) "Monday" "9:30-10:20" = 1
    ∧ countPair (initEntriesExisting allDays []) "Monday" "9:30-10:20" = 1
    ∧ countPair (handleCellChange [] "1st Year" "CSE" [] "Monday"
        "9:30-10:20" "v" CellType.free []) "Monday" "9:30-10:20" =
        countPair [] "Monday" "9:30-10:20"
    ∧ countPair (clearCell "Monday" "9:30-10:20" []) "Monday" "9:30-10:20" =
        countPair [] "Monday" "9:30-10:20" :=
  one_entry_per_cell allDays [] [] [] "1st Year" "CSE" [] "Monday"
    "9:30-10:20" "v" CellType.free "Monday" "9:30-10:20" (by decide)
    (by decide) (by decide)

/-- Witness for C7: a concrete stored timetable for another year books
teacher `T` at the same slot, so assigning `T`'s subject leaves the grid
unchanged. -/
theorem conflict_rejects_witness :
    handleCellChange
      [⟨⟨"2nd Year", "CSE", ⟨false, false, []⟩⟩,
        [{ day := "Monday", timeSlot := "9:30-10:20",
           teacherName := some "T" }]⟩]
      "1st Year" "CSE"
      [{ id := "s1", subjectName := "Math", teacherName := "T" }]
      "Monday" "9:30-10:20" "s1|T" CellType.subject
      [{ day := "Monday", timeSlot := "9:30-10:20" }] =
      [{ day := "Monday", timeSlot := "9:30-10:20" }] :=
  conflict_rejects
    [⟨⟨"2nd Year", "CSE", ⟨false, false, []⟩⟩,
      [{ day := "Monday", timeSlot := "9:30-10:20",
         teacherName := some "T" }]⟩]
    "1st Year" "CSE"
    [{ id := "s1", subjectName := "Math", teacherName := "T" }]
    "Monday" "9:30-10:20" "s1|T"
    [{ day := "Monday", timeSlot := "9:30-10:20" }]
    { id := "s1", subjectName := "Math", teacherName := "T" }
    (by decide) (by decide)

end Timetales
